import Mathlib

/-!
# go-framework: request validation and context tagging interceptors

A shallow embedding of

* `validator/interceptors.go` (the validation interceptors), and
* `transport/ctxtags/server_interceptors.go` (the tag propagation interceptors),

followed by the properties proved about them.

Conventions of the embedding.

* A Go `error` is a value of `GoError`; the nil error is `none`.
* A message (`interface{}` in the source) is a `Message`.  The two optional
  capabilities `ValidateAll() error` and `Validate() error` are optional
  fields: `none` when the dynamic type has no such method, `some r` when it has
  one and calling it returns `r`.
* Calls to collaborators (the handler, the validation methods, the field
  extractor) are recorded in an event trace, in program order, so that "is
  invoked", "is never invoked" and "exactly once" are statements about traces.
* Pointers to metadata bags are indices into a `Heap`.
-/

set_option autoImplicit false

namespace GoFramework

/-! ## Values shared by both packages -/

/-- Status kinds of the transport. -/
inductive Code
  | Unknown
  | InvalidArgument
  deriving DecidableEq, Repr

/-- Modelled from the spec: the type `validationWrapperError` is declared in a
file of package `validator` other than `interceptors.go`; it is a struct that
embeds the wrapped `error` and exposes kind `InvalidArgument`.  Every other
error value is `plain`. -/
inductive GoError
  | plain (msg : String)
  | validationWrapperError (error : GoError)
  deriving DecidableEq, Repr

/-- Modelled from the spec: the kind exposed by an error; a validation wrapper
exposes `InvalidArgument`. -/
def GoError.kind : GoError → Code
  | .plain _ => Code.Unknown
  | .validationWrapperError _ => Code.InvalidArgument

/-- A request or stream message together with its dynamic capabilities. -/
structure Message where
  payload : String
  ValidateAll : Option (Option GoError)
  Validate : Option (Option GoError)
  deriving DecidableEq, Repr

/-- Transport peer information (`peer.Peer`); `Addr` is the string form of the
address. -/
structure Peer where
  Addr : String
  deriving DecidableEq, Repr

/-- The call context: the values carried that these interceptors read or set.
`tags` is the pointer to the metadata bag stored under the tags key. -/
structure Context where
  deadline : Option Nat
  peer : Option Peer
  tags : Option Nat
  deriving DecidableEq, Repr

abbrev Response := String

/-- Result of a unary handler: `(interface{}, error)`. -/
abbrev UnaryResult := Option Response × Option GoError

abbrev UnaryHandler := Context → Message → UnaryResult

/-- The transport's stream (`grpc.ServerStream`): its context and what the
successive receives will deliver (the message as it stands after the call and
the error returned).  When nothing is left the receive fails with `EOF` and
leaves the caller's message as it was. -/
structure ServerStream where
  ctx : Context
  incoming : List (Message × Option GoError)
  deriving DecidableEq, Repr

def ServerStream.Context (s : ServerStream) : Context := s.ctx

def ServerStream.RecvMsg (s : ServerStream) (m : Message) :
    ServerStream × Message × Option GoError :=
  match s.incoming with
  | [] => (s, m, some (GoError.plain "EOF"))
  | (m', err) :: rest => ({ s with incoming := rest }, m', err)

/-! ## Package `validator` -/

namespace validator

/-- Calls made by the validation interceptors. -/
inductive Event
  | ValidateAll (m : Message)
  | Validate (m : Message)
  | handler (ctx : Context) (req : Message)
  deriving DecidableEq, Repr

/-- The function returned by `validator.UnaryServerInterceptor()`, with the
trace of the calls it makes. -/
def UnaryServerInterceptor (ctx : Context) (req : Message) (handler : UnaryHandler) :
    List Event × UnaryResult :=
  match req.ValidateAll with
  | some r =>
    match r with
    | some err => ([Event.ValidateAll req], (none, some (GoError.validationWrapperError err)))
    | none => ([Event.ValidateAll req, Event.handler ctx req], handler ctx req)
  | none =>
    match req.Validate with
    | some r =>
      match r with
      | some err => ([Event.Validate req], (none, some (GoError.validationWrapperError err)))
      | none => ([Event.Validate req, Event.handler ctx req], handler ctx req)
    | none => ([Event.handler ctx req], handler ctx req)

/-- The stream wrapper `recvWrapper`: nothing but the wrapped stream. -/
structure recvWrapper where
  stream : ServerStream
  deriving DecidableEq, Repr

/-- What one receive on a `recvWrapper` leaves behind: the wrapper, the message
as it stands after the call, the returned error and the validation calls
made. -/
structure RecvResult where
  s : recvWrapper
  m : Message
  err : Option GoError
  trace : List Event
  deriving DecidableEq, Repr

/-- The method `recvWrapper.RecvMsg`. -/
def recvWrapper.RecvMsg (s : recvWrapper) (m : Message) : RecvResult :=
  match s.stream.RecvMsg m with
  | (stream, m, some err) => ⟨⟨stream⟩, m, some err, []⟩
  | (stream, m, none) =>
    match m.ValidateAll with
    | some r =>
      match r with
      | some err => ⟨⟨stream⟩, m, some (GoError.validationWrapperError err), [Event.ValidateAll m]⟩
      | none => ⟨⟨stream⟩, m, none, [Event.ValidateAll m]⟩
    | none =>
      match m.Validate with
      | some r =>
        match r with
        | some err => ⟨⟨stream⟩, m, some (GoError.validationWrapperError err), [Event.Validate m]⟩
        | none => ⟨⟨stream⟩, m, none, [Event.Validate m]⟩
      | none => ⟨⟨stream⟩, m, none, []⟩

/-- The function returned by `validator.StreamServerInterceptor()`: the handler
is called with the stream wrapped in a `recvWrapper`. -/
def StreamServerInterceptor {α : Type} (stream : ServerStream) (handler : recvWrapper → α) : α :=
  let wrapper : recvWrapper := ⟨stream⟩
  handler wrapper

/-- Successive receives on the wrapper, one per caller buffer: the returned
errors in order, and the wrapper at the end. -/
def recvAll : recvWrapper → List Message → List (Option GoError) × recvWrapper
  | s, [] => ([], s)
  | s, m :: ms =>
    let r := s.RecvMsg m
    let rest := recvAll r.s ms
    (r.err :: rest.1, rest.2)

/-- Whether an event is a call of the handler. -/
def Event.isHandler : Event → Bool
  | .handler _ _ => true
  | _ => false

/-- Whether an event is a call of a validation method. -/
def Event.isValidation : Event → Bool
  | .handler _ _ => false
  | _ => true

/-- The applicable check as the specification words it: `ValidateAll` when the
message has the validate-all capability, otherwise `Validate` when it has the
validate-single capability; `none` when the check passes or when the message
has neither capability. -/
def applicableCheck (m : Message) : Option GoError :=
  match m.ValidateAll with
  | some r => r
  | none =>
    match m.Validate with
    | some r => r
    | none => none

/-- The outcome of a receive as the specification words it, from the underlying
result alone: a transport error is passed on unchanged, a failing check becomes
a validation wrapper, anything else is nil. -/
def specRecvOutcome (u : Message × Option GoError) : Option GoError :=
  match u.2 with
  | some err => some err
  | none =>
    match applicableCheck u.1 with
    | some e => some (GoError.validationWrapperError e)
    | none => none

end validator

/-! ## The underlying stream, receive after receive -/

/-- What the transport's stream delivers to successive receives, one per caller
buffer: the message as it stands after each call and the error returned. -/
def ServerStream.recvAll : ServerStream → List Message → List (Message × Option GoError)
  | _, [] => []
  | s, m :: ms => ((s.RecvMsg m).2.1, (s.RecvMsg m).2.2) :: ServerStream.recvAll (s.RecvMsg m).1 ms

/-! ## Package `logger/grpc/ctxtags`: the metadata bag -/

namespace logger.ctxtags

/-- Modelled from the spec: the metadata bag of package `logger/grpc/ctxtags`,
which lies outside the two embedded files: a mapping from string key to value with unique keys
and last-write-wins, kept in insertion order. -/
structure Tags where
  values : List (String × String)
  deriving DecidableEq, Repr

/-- Modelled from the spec: writing one key of a bag (last write wins, a key
occurs once). -/
def setEntry (key value : String) : List (String × String) → List (String × String)
  | [] => [(key, value)]
  | (k, v) :: rest =>
    if k = key then (key, value) :: rest else (k, v) :: setEntry key value rest

/-- Modelled from the spec: the method `Tags.Set`. -/
def Tags.Set (t : Tags) (key value : String) : Tags := ⟨setEntry key value t.values⟩

/-- Modelled from the spec: reading one key of a bag. -/
def getEntry (key : String) : List (String × String) → Option String
  | [] => none
  | (k, v) :: rest => if k = key then some v else getEntry key rest

/-- Modelled from the spec: the value a bag holds under a key, if any. -/
def Tags.Get (t : Tags) (key : String) : Option String := getEntry key t.values

/-- The bags allocated so far; a pointer to a bag is its index. -/
abbrev Heap := List Tags

/-- Modelled from the spec: `NewTags()` allocates a fresh, empty bag. -/
def NewTags (h : Heap) : Heap × Nat := (h ++ [⟨[]⟩], h.length)

/-- Modelled from the spec: `SetInContext(ctx, t)` returns a new context handle
that carries the bag `t`; every other value of the context is kept. -/
def SetInContext (ctx : Context) (t : Nat) : Context := { ctx with tags := some t }

/-- Modelled from the spec: `Extract(ctx)` retrieves the bag stored in the
context; `none` is the no-op bag returned when the context carries none. -/
def Extract (ctx : Context) : Option Nat := ctx.tags

/-- Calling `Set` through a bag pointer: the bag it points to is updated in
place; a write to the no-op bag does nothing. -/
def heapSet (h : Heap) (t : Option Nat) (key value : String) : Heap :=
  match t with
  | none => h
  | some p =>
    match h[p]? with
    | some bag => h.set p (bag.Set key value)
    | none => h

/-- The value of a key in the bag a pointer refers to. -/
def tagAt (h : Heap) (p : Nat) (key : String) : Option String :=
  match h[p]? with
  | none => none
  | some bag => bag.Get key

/-- The bag a context carries, looked up in the heap. -/
def bagOf (h : Heap) (ctx : Context) : Option Tags :=
  match Extract ctx with
  | none => none
  | some p => h[p]?

/-- The value of a key in the bag a context carries; `none` when the key (or
the bag) is absent. -/
def tagOf (h : Heap) (ctx : Context) (key : String) : Option String :=
  match bagOf h ctx with
  | none => none
  | some bag => bag.Get key

end logger.ctxtags

/-! ## Package `grpcMiddleware` (third party): the context-swap wrapper -/

namespace grpcMiddleware

/-- The library type `WrappedServerStream`: a stream and the context it
reports. -/
structure WrappedServerStream where
  stream : ServerStream
  WrappedContext : Context
  deriving DecidableEq, Repr

/-- The library function `WrapServerStream` on a stream that is not wrapped
yet: the wrapper starts with the stream's own context. -/
def WrapServerStream (stream : ServerStream) : WrappedServerStream :=
  ⟨stream, stream.Context⟩

def WrappedServerStream.Context (w : WrappedServerStream) : Context := w.WrappedContext

/-- The wrapper does not intercept receives: it delegates to the stream. -/
def WrappedServerStream.RecvMsg (w : WrappedServerStream) (m : Message) :
    WrappedServerStream × Message × Option GoError :=
  ({ w with stream := (w.stream.RecvMsg m).1 }, (w.stream.RecvMsg m).2.1, (w.stream.RecvMsg m).2.2)

end grpcMiddleware

/-! ## Package `transport/ctxtags` -/

namespace ctxtags

open logger.ctxtags (Heap)

/-- A Go map from field name to value as the loop `for k, v := range valMap`
visits it: the entries in iteration order. -/
abbrev FieldMap := List (String × String)

/-- The type `RequestFieldExtractorFunc`; `none` is the nil map. -/
abbrev RequestFieldExtractorFunc := String → Message → Option FieldMap

/-- The evaluated options (declared in `options.go` of the package): the optional
field extractor and the flag "extract only from the initial message". -/
structure options where
  requestFieldsFunc : Option RequestFieldExtractorFunc
  requestFieldsFromInitial : Bool

structure UnaryServerInfo where
  FullMethod : String
  deriving DecidableEq, Repr

structure StreamServerInfo where
  FullMethod : String
  IsClientStream : Bool
  IsServerStream : Bool
  deriving DecidableEq, Repr

/-- Calls of the field extractor, with their arguments. -/
inductive Event
  | requestFieldsFunc (fullMethodName : String) (req : Message)
  deriving DecidableEq, Repr

/-- The function `peer.FromContext`. -/
def peerFromContext (ctx : Context) : Option Peer := ctx.peer

/-- The function `newTagsForCtx`: the heap afterwards and the new context. -/
def newTagsForCtx (h : Heap) (ctx : Context) : Heap × Context :=
  let a := logger.ctxtags.NewTags h
  let h1 :=
    match peerFromContext ctx with
    | some peerCtx => logger.ctxtags.heapSet a.1 (some a.2) "peer.address" peerCtx.Addr
    | none => a.1
  (h1, logger.ctxtags.SetInContext ctx a.2)

/-- The function `setRequestFieldTags`: the heap afterwards and the trace of
extractor calls; `none` when `f` is nil, where the call `f(...)` panics. -/
def setRequestFieldTags (h : Heap) (ctx : Context) (f : Option RequestFieldExtractorFunc)
    (fullMethodName : String) (req : Message) : Option (Heap × List Event) :=
  match f with
  | none => none
  | some f =>
    match f fullMethodName req with
    | some valMap =>
      let t := logger.ctxtags.Extract ctx
      some (valMap.foldl (fun hp kv => logger.ctxtags.heapSet hp t ("grpc.request." ++ kv.1) kv.2) h,
        [Event.requestFieldsFunc fullMethodName req])
    | none => some (h, [Event.requestFieldsFunc fullMethodName req])

/-- The function returned by `ctxtags.UnaryServerInterceptor(opts...)`: the
trace of extractor calls and the handler's result. -/
def UnaryServerInterceptor {α : Type} (o : options) (h : Heap) (ctx : Context) (req : Message)
    (info : UnaryServerInfo) (handler : Heap → Context → Message → α) :
    Option (List Event × α) :=
  let n := newTagsForCtx h ctx
  let newCtx := n.2
  match o.requestFieldsFunc with
  | some _ =>
    match setRequestFieldTags n.1 newCtx o.requestFieldsFunc info.FullMethod req with
    | some r => some (r.2, handler r.1 newCtx req)
    | none => none
  | none => some ([], handler n.1 newCtx req)

/-- The type `wrappedStream`. -/
structure wrappedStream where
  stream : ServerStream
  info : StreamServerInfo
  opts : options
  WrappedContext : Context
  initial : Bool

def wrappedStream.Context (w : wrappedStream) : Context := w.WrappedContext

/-- What one receive on a `wrappedStream` leaves behind: the wrapper, the heap,
the message as it stands after the call, the returned error and the extractor
calls made. -/
structure RecvResult where
  w : wrappedStream
  heap : Heap
  m : Message
  err : Option GoError
  trace : List Event

/-- The method `wrappedStream.RecvMsg`; `none` when the call panics. -/
def wrappedStream.RecvMsg (w : wrappedStream) (h : Heap) (m : Message) : Option RecvResult :=
  let u := w.stream.RecvMsg m
  let w1 : wrappedStream := { w with stream := u.1 }
  let err := u.2.2
  if !w1.info.IsClientStream || w1.opts.requestFieldsFromInitial && w1.initial then
    let w2 : wrappedStream := { w1 with initial := false }
    match setRequestFieldTags h w2.Context w2.opts.requestFieldsFunc w2.info.FullMethod u.2.1 with
    | some r => some ⟨w2, r.1, u.2.1, err, r.2⟩
    | none => none
  else
    some ⟨w1, h, u.2.1, err, []⟩

/-- The stream object the handler receives from the stream interceptor. -/
inductive HandlerStream
  | swapped (s : grpcMiddleware.WrappedServerStream)
  | wrapped (w : wrappedStream)

def HandlerStream.Context : HandlerStream → Context
  | .swapped s => s.Context
  | .wrapped w => w.Context

/-- The function returned by `ctxtags.StreamServerInterceptor(opts...)`. -/
def StreamServerInterceptor {α : Type} (o : options) (h : Heap) (stream : ServerStream)
    (info : StreamServerInfo) (handler : Heap → HandlerStream → α) : α :=
  let n := newTagsForCtx h stream.Context
  let newCtx := n.2
  match o.requestFieldsFunc with
  | none =>
    let wrapStream := grpcMiddleware.WrapServerStream stream
    let wrapStream1 : grpcMiddleware.WrappedServerStream := { wrapStream with WrappedContext := newCtx }
    handler n.1 (HandlerStream.swapped wrapStream1)
  | some _ =>
    let wrapped : wrappedStream := ⟨stream, info, o, newCtx, true⟩
    handler n.1 (HandlerStream.wrapped wrapped)

/-- Successive receives on a `wrappedStream`, one per caller buffer: the
wrapper and heap at the end and all extractor calls in order; `none` when one
of the receives panics. -/
def recvAll : wrappedStream → Heap → List Message → Option (wrappedStream × Heap × List Event)
  | w, h, [] => some (w, h, [])
  | w, h, m :: ms =>
    match w.RecvMsg h m with
    | some r =>
      match recvAll r.w r.heap ms with
      | some q => some (q.1, q.2.1, r.trace ++ q.2.2)
      | none => none
    | none => none

/-- A handler's view of successive receives on a `wrappedStream`: for each
receive the returned error, the extractor calls made, the wrapper's `initial`
flag afterwards and the bag of the wrapper's context afterwards. -/
def observe : wrappedStream → Heap → List Message →
    Option (List (Option GoError × List Event × Bool × Option logger.ctxtags.Tags))
  | _, _, [] => some []
  | w, h, m :: ms =>
    match w.RecvMsg h m with
    | some r =>
      match observe r.w r.heap ms with
      | some os => some ((r.err, r.trace, r.w.initial, logger.ctxtags.bagOf r.heap r.w.Context) :: os)
      | none => none
    | none => none

/-- A stream handler that performs one receive per buffer on the stream it is
given and reports what it observes; on the context-swap wrapper there is
nothing to observe. -/
def observingHandler (bufs : List Message) (h : Heap) (hs : HandlerStream) :
    Option (List (Option GoError × List Event × Bool × Option logger.ctxtags.Tags)) :=
  match hs with
  | .wrapped w => observe w h bufs
  | .swapped _ => none

end ctxtags

/-! # Properties -/

/-! ## Validation interceptors -/

/-- C1: when the applicable check of a unary request fails with `e`
(`ValidateAll` if the request has it, otherwise `Validate`), the validation
interceptor returns a nil response and the validation wrapper of exactly `e`,
whose kind is `InvalidArgument`, and its trace holds no call of the handler. -/
theorem validator_unary_rejects (ctx : Context) (req : Message) (handler : UnaryHandler)
    (e : GoError)
    (hfail : req.ValidateAll = some (some e) ∨
      (req.ValidateAll = none ∧ req.Validate = some (some e))) :
    (validator.UnaryServerInterceptor ctx req handler).2
        = (none, some (GoError.validationWrapperError e)) ∧
      (GoError.validationWrapperError e).kind = Code.InvalidArgument ∧
      (validator.UnaryServerInterceptor ctx req handler).1.filter validator.Event.isHandler = [] := by
  rcases hfail with h | ⟨h1, h2⟩
  · simp [validator.UnaryServerInterceptor, h, GoError.kind, validator.Event.isHandler]
  · simp [validator.UnaryServerInterceptor, h1, h2, GoError.kind, validator.Event.isHandler]

/-- Witness of C1: the scenario of the specification, a request with the
validate-single capability failing with "field required". -/
theorem validator_unary_rejects_witness :
    (validator.UnaryServerInterceptor ⟨none, none, none⟩
        ⟨"req", none, some (some (GoError.plain "field required"))⟩
        (fun _ _ => (some "resp", none))).2
        = (none, some (GoError.validationWrapperError (GoError.plain "field required"))) ∧
      (GoError.validationWrapperError (GoError.plain "field required")).kind
        = Code.InvalidArgument ∧
      (validator.UnaryServerInterceptor ⟨none, none, none⟩
        ⟨"req", none, some (some (GoError.plain "field required"))⟩
        (fun _ _ => (some "resp", none))).1.filter validator.Event.isHandler = [] :=
  validator_unary_rejects ⟨none, none, none⟩
    ⟨"req", none, some (some (GoError.plain "field required"))⟩
    (fun _ _ => (some "resp", none)) (GoError.plain "field required") (Or.inr ⟨rfl, rfl⟩)

/-- C2: when a unary request has neither validation capability, or its
applicable check returns no error, the validation interceptor calls the handler
exactly once, with the original context and request, and returns exactly the
handler's pair. -/
theorem validator_unary_passes (ctx : Context) (req : Message) (handler : UnaryHandler)
    (hok : (req.ValidateAll = none ∧ req.Validate = none) ∨ req.ValidateAll = some none ∨
      (req.ValidateAll = none ∧ req.Validate = some none)) :
    (validator.UnaryServerInterceptor ctx req handler).2 = handler ctx req ∧
      (validator.UnaryServerInterceptor ctx req handler).1.filter validator.Event.isHandler
        = [validator.Event.handler ctx req] := by
  rcases hok with ⟨h1, h2⟩ | h | ⟨h1, h2⟩
  · simp [validator.UnaryServerInterceptor, h1, h2, validator.Event.isHandler]
  · simp [validator.UnaryServerInterceptor, h, validator.Event.isHandler]
  · simp [validator.UnaryServerInterceptor, h1, h2, validator.Event.isHandler]

/-- Witness of C2: a request with neither capability reaches the handler. -/
theorem validator_unary_passes_witness :
    (validator.UnaryServerInterceptor ⟨some 5, none, none⟩ ⟨"req", none, none⟩
        (fun _ r => (some r.payload, none))).2 = (some "req", none) ∧
      (validator.UnaryServerInterceptor ⟨some 5, none, none⟩ ⟨"req", none, none⟩
        (fun _ r => (some r.payload, none))).1.filter validator.Event.isHandler
        = [validator.Event.handler ⟨some 5, none, none⟩ ⟨"req", none, none⟩] :=
  validator_unary_passes ⟨some 5, none, none⟩ ⟨"req", none, none⟩
    (fun _ r => (some r.payload, none)) (Or.inl ⟨rfl, rfl⟩)

/-- One receive on the validation wrapper, in terms of what the underlying
receive delivered. -/
theorem recvWrapper_RecvMsg_spec (s : validator.recvWrapper) (m : Message) :
    (s.RecvMsg m).err
        = validator.specRecvOutcome ((s.stream.RecvMsg m).2.1, (s.stream.RecvMsg m).2.2) ∧
      (s.RecvMsg m).s = ⟨(s.stream.RecvMsg m).1⟩ ∧
      (s.RecvMsg m).m = (s.stream.RecvMsg m).2.1 := by
  unfold validator.recvWrapper.RecvMsg validator.specRecvOutcome validator.applicableCheck
  rcases hu : s.stream.RecvMsg m with ⟨st, m', err⟩
  cases err with
  | some e => simp
  | none =>
    rcases hA : m'.ValidateAll with _ | ra
    · rcases hV : m'.Validate with _ | rs
      · simp [hA, hV]
      · cases rs <;> simp [hA, hV]
    · cases ra <;> simp [hA]

/-- Successive receives on the validation wrapper return, receive by receive,
the specified outcome of what the underlying stream delivered. -/
theorem recvAll_eq_map (s : validator.recvWrapper) (bufs : List Message) :
    (validator.recvAll s bufs).1 = (s.stream.recvAll bufs).map validator.specRecvOutcome := by
  induction bufs generalizing s with
  | nil => simp [validator.recvAll, ServerStream.recvAll]
  | cons b rest ih =>
    have h := recvWrapper_RecvMsg_spec s b
    simp only [validator.recvAll, ServerStream.recvAll, List.map_cons]
    rw [ih, h.1, h.2.1]

/-- C3: a receive on the validation wrapper. If the underlying receive returns
an error, that error is returned unchanged and no validation method is called;
if it succeeds, the result is the validation wrapper (kind `InvalidArgument`)
of the applicable check's error when that check fails, and nil otherwise. The
wrapper keeps nothing but the underlying stream, and over any sequence of
receives each returned error is a function of what the underlying stream
delivered to that receive alone. -/
theorem validator_recv_contract (s : validator.recvWrapper) (m : Message) :
    (∀ e, (s.stream.RecvMsg m).2.2 = some e →
        (s.RecvMsg m).err = some e ∧ (s.RecvMsg m).trace = []) ∧
      (∀ e, (s.stream.RecvMsg m).2.2 = none →
        ((s.stream.RecvMsg m).2.1.ValidateAll = some (some e) ∨
          ((s.stream.RecvMsg m).2.1.ValidateAll = none ∧
            (s.stream.RecvMsg m).2.1.Validate = some (some e))) →
        (s.RecvMsg m).err = some (GoError.validationWrapperError e) ∧
          (GoError.validationWrapperError e).kind = Code.InvalidArgument) ∧
      ((s.stream.RecvMsg m).2.2 = none →
        ((s.stream.RecvMsg m).2.1.ValidateAll = some none ∨
          ((s.stream.RecvMsg m).2.1.ValidateAll = none ∧
            ((s.stream.RecvMsg m).2.1.Validate = some none ∨
              (s.stream.RecvMsg m).2.1.Validate = none))) →
        (s.RecvMsg m).err = none) ∧
      (s.RecvMsg m).s = ⟨(s.stream.RecvMsg m).1⟩ ∧
      ∀ bufs : List Message,
        (validator.recvAll s bufs).1 = (s.stream.recvAll bufs).map validator.specRecvOutcome := by
  refine ⟨?_, ?_, ?_, (recvWrapper_RecvMsg_spec s m).2.1, recvAll_eq_map s⟩
  · intro e he
    unfold validator.recvWrapper.RecvMsg
    rcases hu : s.stream.RecvMsg m with ⟨st, m', err⟩
    rw [hu] at he
    simp only at he
    subst he
    simp
  · intro e he hc
    refine ⟨?_, rfl⟩
    rw [(recvWrapper_RecvMsg_spec s m).1]
    unfold validator.specRecvOutcome validator.applicableCheck
    rcases hc with h | ⟨h1, h2⟩
    · simp [he, h]
    · simp [he, h1, h2]
  · intro he hc
    rw [(recvWrapper_RecvMsg_spec s m).1]
    unfold validator.specRecvOutcome validator.applicableCheck
    rcases hc with h | ⟨h1, h2 | h2⟩
    · simp [he, h]
    · simp [he, h1, h2]
    · simp [he, h1, h2]

/-- Witness of C3: a transport error `reset` is passed on without any
validation call, and a delivered message whose `Validate` fails with `bad` is
turned into the validation wrapper of `bad`. -/
theorem validator_recv_contract_witness :
    ((validator.recvWrapper.RecvMsg
          ⟨⟨⟨none, none, none⟩, [(⟨"x", some (some (GoError.plain "all")), none⟩,
            some (GoError.plain "reset"))]⟩⟩ ⟨"", none, none⟩).err
        = some (GoError.plain "reset") ∧
      (validator.recvWrapper.RecvMsg
          ⟨⟨⟨none, none, none⟩, [(⟨"x", some (some (GoError.plain "all")), none⟩,
            some (GoError.plain "reset"))]⟩⟩ ⟨"", none, none⟩).trace = []) ∧
    ((validator.recvWrapper.RecvMsg
          ⟨⟨⟨none, none, none⟩, [(⟨"y", none, some (some (GoError.plain "bad"))⟩, none)]⟩⟩
          ⟨"", none, none⟩).err
        = some (GoError.validationWrapperError (GoError.plain "bad")) ∧
      (GoError.validationWrapperError (GoError.plain "bad")).kind = Code.InvalidArgument) :=
  ⟨(validator_recv_contract
      ⟨⟨⟨none, none, none⟩, [(⟨"x", some (some (GoError.plain "all")), none⟩,
        some (GoError.plain "reset"))]⟩⟩ ⟨"", none, none⟩).1 (GoError.plain "reset") rfl,
   (validator_recv_contract
      ⟨⟨⟨none, none, none⟩, [(⟨"y", none, some (some (GoError.plain "bad"))⟩, none)]⟩⟩
      ⟨"", none, none⟩).2.1 (GoError.plain "bad") rfl (Or.inr ⟨rfl, rfl⟩)⟩

/-- C10: for a message with both capabilities, in the unary interceptor and in
the stream wrapper's receive alike, `ValidateAll` is called and `Validate` is
not; the message is rejected (the handler is not called, respectively the
receive returns the validation wrapper) exactly when `ValidateAll` returns an
error, whatever `Validate` would return. -/
theorem validate_all_shadows_validate (ra rs : Option GoError) :
    (∀ (ctx : Context) (req : Message) (handler : UnaryHandler),
        req.ValidateAll = some ra → req.Validate = some rs →
        (validator.UnaryServerInterceptor ctx req handler).1.filter validator.Event.isValidation
            = [validator.Event.ValidateAll req] ∧
          ((validator.UnaryServerInterceptor ctx req handler).1.filter validator.Event.isHandler = []
            ↔ ra ≠ none) ∧
          (∀ e, ra = some e → (validator.UnaryServerInterceptor ctx req handler).2
            = (none, some (GoError.validationWrapperError e))) ∧
          (ra = none → validator.UnaryServerInterceptor ctx req handler
            = ([validator.Event.ValidateAll req, validator.Event.handler ctx req],
                handler ctx req))) ∧
      (∀ (s : validator.recvWrapper) (m : Message),
        (s.stream.RecvMsg m).2.2 = none →
        (s.stream.RecvMsg m).2.1.ValidateAll = some ra →
        (s.stream.RecvMsg m).2.1.Validate = some rs →
        (s.RecvMsg m).trace = [validator.Event.ValidateAll (s.stream.RecvMsg m).2.1] ∧
          (s.RecvMsg m).err = ra.map GoError.validationWrapperError) := by
  constructor
  · intro ctx req handler hA _
    cases ra with
    | none => simp [validator.UnaryServerInterceptor, hA, validator.Event.isValidation,
        validator.Event.isHandler]
    | some e => simp [validator.UnaryServerInterceptor, hA, validator.Event.isValidation,
        validator.Event.isHandler]
  · intro s m he hA _
    unfold validator.recvWrapper.RecvMsg
    rcases hu : s.stream.RecvMsg m with ⟨st, m', err⟩
    rw [hu] at he hA
    simp only at he hA
    subst he
    cases ra <;> simp [hA]

/-- Witness of C10: a message whose `ValidateAll` passes and whose `Validate`
would fail is accepted, unary and streaming; only `ValidateAll` is called. -/
theorem validate_all_shadows_validate_witness :
    (validator.UnaryServerInterceptor ⟨none, none, none⟩
          ⟨"req", some none, some (some (GoError.plain "single"))⟩
          (fun _ _ => (some "resp", none))
        = ([validator.Event.ValidateAll ⟨"req", some none, some (some (GoError.plain "single"))⟩,
            validator.Event.handler ⟨none, none, none⟩
              ⟨"req", some none, some (some (GoError.plain "single"))⟩],
           (some "resp", none))) ∧
      ((validator.recvWrapper.RecvMsg
            ⟨⟨⟨none, none, none⟩,
              [(⟨"msg", some none, some (some (GoError.plain "single"))⟩, none)]⟩⟩
            ⟨"", none, none⟩).trace
          = [validator.Event.ValidateAll
              ⟨"msg", some none, some (some (GoError.plain "single"))⟩] ∧
        (validator.recvWrapper.RecvMsg
            ⟨⟨⟨none, none, none⟩,
              [(⟨"msg", some none, some (some (GoError.plain "single"))⟩, none)]⟩⟩
            ⟨"", none, none⟩).err = none) :=
  ⟨((validate_all_shadows_validate none (some (GoError.plain "single"))).1 ⟨none, none, none⟩
      ⟨"req", some none, some (some (GoError.plain "single"))⟩
      (fun _ _ => (some "resp", none)) rfl rfl).2.2.2 rfl,
   (validate_all_shadows_validate none (some (GoError.plain "single"))).2
      ⟨⟨⟨none, none, none⟩,
        [(⟨"msg", some none, some (some (GoError.plain "single"))⟩, none)]⟩⟩
      ⟨"", none, none⟩ rfl rfl rfl⟩

/-! ## Tag propagation interceptors: the metadata bag -/

/-- The value under a key in the bag a pointer refers to. -/
theorem getEntry_setEntry (key value k : String) (l : List (String × String)) :
    logger.ctxtags.getEntry k (logger.ctxtags.setEntry key value l)
      = if k = key then some value else logger.ctxtags.getEntry k l := by
  induction l with
  | nil =>
    by_cases hk : k = key
    · simp [logger.ctxtags.setEntry, logger.ctxtags.getEntry, hk]
    · have hk' : ¬ key = k := fun e => hk e.symm
      simp [logger.ctxtags.setEntry, logger.ctxtags.getEntry, hk, hk']
  | cons p rest ih =>
    rcases p with ⟨k0, v0⟩
    by_cases h0 : k0 = key
    · subst h0
      by_cases hk : k = k0
      · simp [logger.ctxtags.setEntry, logger.ctxtags.getEntry, hk]
      · have hk' : ¬ k0 = k := fun e => hk e.symm
        simp [logger.ctxtags.setEntry, logger.ctxtags.getEntry, hk, hk']
    · by_cases hk : k = key
      · subst hk
        simp [logger.ctxtags.setEntry, logger.ctxtags.getEntry, h0, ih]
      · by_cases h1 : k0 = k
        · simp [logger.ctxtags.setEntry, logger.ctxtags.getEntry, h0, h1, hk]
        · simp [logger.ctxtags.setEntry, logger.ctxtags.getEntry, h0, h1, hk, ih]

theorem heapSet_length (h : logger.ctxtags.Heap) (t : Option Nat) (key value : String) :
    (logger.ctxtags.heapSet h t key value).length = h.length := by
  unfold logger.ctxtags.heapSet
  cases t with
  | none => rfl
  | some p =>
    rcases hp : h[p]? with _ | bag <;> simp [hp]

theorem heapSet_other (h : logger.ctxtags.Heap) (p q : Nat) (key value : String) (hq : q ≠ p) :
    (logger.ctxtags.heapSet h (some p) key value)[q]? = h[q]? := by
  unfold logger.ctxtags.heapSet
  have hq' : ¬ p = q := fun e => hq e.symm
  rcases hp : h[p]? with _ | bag <;> simp [hp, List.getElem?_set, hq']

theorem tagAt_heapSet (h : logger.ctxtags.Heap) (p : Nat) (key value k : String)
    (hp : p < h.length) :
    logger.ctxtags.tagAt (logger.ctxtags.heapSet h (some p) key value) p k
      = if k = key then some value else logger.ctxtags.tagAt h p k := by
  unfold logger.ctxtags.tagAt logger.ctxtags.heapSet
  have hb : h[p]? = some h[p] := List.getElem?_eq_getElem hp
  simp [hb, List.getElem?_set, hp, logger.ctxtags.Tags.Get, logger.ctxtags.Tags.Set,
    getEntry_setEntry]

/-- Appending to a fixed string is injective. -/
theorem string_append_left_cancel (a k1 k2 : String) (h : a ++ k1 = a ++ k2) : k1 = k2 := by
  have hd := congrArg String.data h
  simp only [String.data_append] at hd
  exact String.ext (List.append_cancel_left hd)

/-- No request field key is the peer address key. -/
theorem peer_address_ne_request_key (k : String) : "peer.address" ≠ "grpc.request." ++ k := by
  intro h
  have hd := congrArg String.data h
  simp only [String.data_append] at hd
  simp at hd

/-- Writing request fields keeps the number of allocated bags. -/
theorem writeFields_length (fields : ctxtags.FieldMap) (h : logger.ctxtags.Heap) (t : Option Nat) :
    (fields.foldl (fun hp kv => logger.ctxtags.heapSet hp t ("grpc.request." ++ kv.1) kv.2) h).length
      = h.length := by
  induction fields generalizing h with
  | nil => rfl
  | cons kv rest ih => simp only [List.foldl_cons]; rw [ih, heapSet_length]

/-- Writing request fields through one pointer leaves every other bag alone. -/
theorem writeFields_other (fields : ctxtags.FieldMap) (h : logger.ctxtags.Heap) (p q : Nat)
    (hq : q ≠ p) :
    (fields.foldl (fun hp kv =>
        logger.ctxtags.heapSet hp (some p) ("grpc.request." ++ kv.1) kv.2) h)[q]? = h[q]? := by
  induction fields generalizing h with
  | nil => rfl
  | cons kv rest ih => simp only [List.foldl_cons]; rw [ih, heapSet_other _ _ _ _ _ hq]

/-- A key that is no request field key keeps its value. -/
theorem writeFields_tagAt_other (fields : ctxtags.FieldMap) (h : logger.ctxtags.Heap) (p : Nat)
    (key : String) (hp : p < h.length)
    (hk : ∀ kv ∈ fields, key ≠ "grpc.request." ++ kv.1) :
    logger.ctxtags.tagAt (fields.foldl (fun hp kv =>
        logger.ctxtags.heapSet hp (some p) ("grpc.request." ++ kv.1) kv.2) h) p key
      = logger.ctxtags.tagAt h p key := by
  induction fields generalizing h with
  | nil => rfl
  | cons kv rest ih =>
    simp only [List.foldl_cons]
    rw [ih _ (by rw [heapSet_length]; exact hp) (fun x hx => hk x (List.mem_cons_of_mem _ hx)),
      tagAt_heapSet _ _ _ _ _ hp, if_neg (hk kv (List.mem_cons_self _ _))]

/-- Every entry of a field map with distinct keys ends up in the bag. -/
theorem writeFields_tagAt_field (fields : ctxtags.FieldMap) (h : logger.ctxtags.Heap) (p : Nat)
    (hp : p < h.length) (hnd : (fields.map Prod.fst).Nodup) (k v : String)
    (hm : (k, v) ∈ fields) :
    logger.ctxtags.tagAt (fields.foldl (fun hp kv =>
        logger.ctxtags.heapSet hp (some p) ("grpc.request." ++ kv.1) kv.2) h) p
        ("grpc.request." ++ k) = some v := by
  induction fields generalizing h with
  | nil => cases hm
  | cons kv rest ih =>
    simp only [List.foldl_cons]
    rw [List.map_cons, List.nodup_cons] at hnd
    have hp1 : p < (logger.ctxtags.heapSet h (some p) ("grpc.request." ++ kv.1) kv.2).length := by
      rw [heapSet_length]; exact hp
    rcases List.mem_cons.mp hm with he | hr
    · subst he
      rw [writeFields_tagAt_other rest _ p _ hp1, tagAt_heapSet _ _ _ _ _ hp, if_pos rfl]
      intro x hx hkx
      have : k = x.1 := string_append_left_cancel _ _ _ hkx
      exact hnd.1 (List.mem_map.mpr ⟨x, hx, this.symm⟩)
    · exact ih _ hp1 hnd.2 hr

/-- The context made by `newTagsForCtx` carries a pointer to the bag allocated
last and keeps every other value. -/
theorem newTagsForCtx_ctx (h : logger.ctxtags.Heap) (ctx : Context) :
    (ctxtags.newTagsForCtx h ctx).2 = { ctx with tags := some h.length } := by
  simp [ctxtags.newTagsForCtx, logger.ctxtags.SetInContext, logger.ctxtags.NewTags]

theorem newTagsForCtx_length (h : logger.ctxtags.Heap) (ctx : Context) :
    (ctxtags.newTagsForCtx h ctx).1.length = h.length + 1 := by
  unfold ctxtags.newTagsForCtx ctxtags.peerFromContext
  rcases hp : ctx.peer with _ | pr <;> simp [hp, heapSet_length, logger.ctxtags.NewTags]

/-- The bags that existed before `newTagsForCtx` are left as they were. -/
theorem newTagsForCtx_old (h : logger.ctxtags.Heap) (ctx : Context) (q : Nat)
    (hq : q < h.length) : (ctxtags.newTagsForCtx h ctx).1[q]? = h[q]? := by
  unfold ctxtags.newTagsForCtx ctxtags.peerFromContext
  rcases hp : ctx.peer with _ | pr
  · simp [hp, logger.ctxtags.NewTags, List.getElem?_append_left hq]
  · simp only [hp, logger.ctxtags.NewTags]
    rw [heapSet_other _ _ _ _ _ (Nat.ne_of_lt hq), List.getElem?_append_left hq]

/-- The new bag holds the peer address, when there is one, and nothing else. -/
theorem newTagsForCtx_tagAt (h : logger.ctxtags.Heap) (ctx : Context) (key : String) :
    logger.ctxtags.tagAt (ctxtags.newTagsForCtx h ctx).1 h.length key
      = if key = "peer.address" then ctx.peer.map Peer.Addr else none := by
  have hnew : logger.ctxtags.tagAt (h ++ [(⟨[]⟩ : logger.ctxtags.Tags)]) h.length key = none := by
    simp [logger.ctxtags.tagAt, logger.ctxtags.Tags.Get, logger.ctxtags.getEntry]
  unfold ctxtags.newTagsForCtx ctxtags.peerFromContext
  rcases hp : ctx.peer with _ | pr
  · simp [hp, logger.ctxtags.NewTags, hnew]
  · simp only [hp, logger.ctxtags.NewTags]
    rw [tagAt_heapSet _ _ _ _ _ (by simp), hnew]
    simp

/-- Reading a key through a context that carries the pointer `p`. -/
theorem tagOf_eq_tagAt (h : logger.ctxtags.Heap) (ctx : Context) (p : Nat) (key : String)
    (hc : ctx.tags = some p) : logger.ctxtags.tagOf h ctx key = logger.ctxtags.tagAt h p key := by
  unfold logger.ctxtags.tagOf logger.ctxtags.bagOf logger.ctxtags.Extract logger.ctxtags.tagAt
  rw [hc]

/-- C4: with a field extractor configured, the unary tag interceptor calls the
handler with a context whose bag is freshly allocated (its pointer was not in
use before and every earlier bag is left untouched) and holds exactly: under
`peer.address` the peer address when peer information is available, and under
`grpc.request.<k>` the value `v` for every entry `k -> v` of the extractor's
mapping; no other key is present, and `peer.address` is never a request field
key. A Go map has distinct keys, which is the hypothesis on the mapping. -/
theorem unary_handler_bag (o : ctxtags.options) (f : ctxtags.RequestFieldExtractorFunc)
    (h : logger.ctxtags.Heap) (ctx : Context) (req : Message) (info : ctxtags.UnaryServerInfo)
    (hf : o.requestFieldsFunc = some f)
    (hmap : (((f info.FullMethod req).getD []).map Prod.fst).Nodup) :
    ∃ (h' : logger.ctxtags.Heap) (newCtx : Context),
      (∀ (α : Type) (handler : logger.ctxtags.Heap → Context → Message → α),
        ctxtags.UnaryServerInterceptor o h ctx req info handler
          = some ([ctxtags.Event.requestFieldsFunc info.FullMethod req], handler h' newCtx req)) ∧
      newCtx = { ctx with tags := some h.length } ∧
      h[h.length]? = none ∧
      (∀ q, q < h.length → h'[q]? = h[q]?) ∧
      logger.ctxtags.tagOf h' newCtx "peer.address" = ctx.peer.map Peer.Addr ∧
      (∀ k v, (k, v) ∈ (f info.FullMethod req).getD [] →
        logger.ctxtags.tagOf h' newCtx ("grpc.request." ++ k) = some v) ∧
      (∀ key, logger.ctxtags.tagOf h' newCtx key ≠ none →
        (key = "peer.address" ∧ ctx.peer ≠ none) ∨
          ∃ k v, (k, v) ∈ (f info.FullMethod req).getD [] ∧ key = "grpc.request." ++ k) := by
  have hlen : h.length < (ctxtags.newTagsForCtx h ctx).1.length := by
    rw [newTagsForCtx_length]; exact Nat.lt_succ_self _
  have htags : ({ ctx with tags := some h.length } : Context).tags = some h.length := rfl
  refine ⟨((f info.FullMethod req).getD []).foldl (fun hp kv =>
      logger.ctxtags.heapSet hp (some h.length) ("grpc.request." ++ kv.1) kv.2)
      (ctxtags.newTagsForCtx h ctx).1, { ctx with tags := some h.length }, ?_, rfl, ?_, ?_, ?_, ?_, ?_⟩
  · intro α handler
    unfold ctxtags.UnaryServerInterceptor ctxtags.setRequestFieldTags
    simp only [hf, newTagsForCtx_ctx, logger.ctxtags.Extract]
    rcases hfr : f info.FullMethod req with _ | valMap <;> simp
  · simp
  · intro q hq
    rw [writeFields_other _ _ _ _ (Nat.ne_of_lt hq), newTagsForCtx_old _ _ _ hq]
  · rw [tagOf_eq_tagAt _ _ _ _ htags, writeFields_tagAt_other _ _ _ _ hlen
      (fun kv _ => peer_address_ne_request_key kv.1), newTagsForCtx_tagAt]
    simp
  · intro k v hkv
    rw [tagOf_eq_tagAt _ _ _ _ htags]
    exact writeFields_tagAt_field _ _ _ hlen hmap k v hkv
  · intro key hkey
    rw [tagOf_eq_tagAt _ _ _ _ htags] at hkey
    by_cases hex : ∃ k v, (k, v) ∈ (f info.FullMethod req).getD [] ∧ key = "grpc.request." ++ k
    · exact Or.inr hex
    · left
      have hno : ∀ kv ∈ (f info.FullMethod req).getD [], key ≠ "grpc.request." ++ kv.1 :=
        fun kv hkv he => hex ⟨kv.1, kv.2, hkv, he⟩
      rw [writeFields_tagAt_other _ _ _ _ hlen hno, newTagsForCtx_tagAt] at hkey
      by_cases hk : key = "peer.address"
      · refine ⟨hk, ?_⟩
        intro hp
        rw [if_pos hk, hp] at hkey
        exact hkey rfl
      · rw [if_neg hk] at hkey
        exact absurd rfl hkey

/-- Witness of C4: method `X`, extractor returning `id -> 42`, peer
`10.0.0.1:500`; the handler sees the bag `peer.address -> 10.0.0.1:500`,
`grpc.request.id -> 42`. -/
theorem unary_handler_bag_witness :
    (ctxtags.UnaryServerInterceptor ⟨some (fun _ _ => some [("id", "42")]), false⟩ []
        ⟨none, some ⟨"10.0.0.1:500"⟩, none⟩ ⟨"req", none, none⟩ ⟨"X"⟩
        (fun hp c _ => logger.ctxtags.bagOf hp c)
      = some ([ctxtags.Event.requestFieldsFunc "X" ⟨"req", none, none⟩],
          some ⟨[("peer.address", "10.0.0.1:500"), ("grpc.request.id", "42")]⟩)) ∧
    ∃ (h' : logger.ctxtags.Heap) (newCtx : Context),
      (∀ (α : Type) (handler : logger.ctxtags.Heap → Context → Message → α),
        ctxtags.UnaryServerInterceptor ⟨some (fun _ _ => some [("id", "42")]), false⟩ []
            ⟨none, some ⟨"10.0.0.1:500"⟩, none⟩ ⟨"req", none, none⟩ ⟨"X"⟩ handler
          = some ([ctxtags.Event.requestFieldsFunc "X" ⟨"req", none, none⟩],
              handler h' newCtx ⟨"req", none, none⟩)) ∧
      logger.ctxtags.tagOf h' newCtx "peer.address" = some "10.0.0.1:500" ∧
      logger.ctxtags.tagOf h' newCtx ("grpc.request." ++ "id") = some "42" := by
  refine ⟨by decide, ?_⟩
  obtain ⟨h', newCtx, h1, _, _, _, h5, h6, _⟩ :=
    unary_handler_bag ⟨some (fun _ _ => some [("id", "42")]), false⟩ (fun _ _ => some [("id", "42")])
      [] ⟨none, some ⟨"10.0.0.1:500"⟩, none⟩ ⟨"req", none, none⟩ ⟨"X"⟩ rfl (by simp)
  exact ⟨h', newCtx, h1, h5, h6 "id" "42" (by simp)⟩

/-! ## Tag propagation interceptors: the stream wrapper -/

/-- With an extractor set, `setRequestFieldTags` returns: it calls the
extractor once, keeps the number of bags, writes through the context's pointer
only, and writes request field keys only. -/
theorem setRequestFieldTags_spec (h : logger.ctxtags.Heap) (ctx : Context)
    (f : ctxtags.RequestFieldExtractorFunc) (method : String) (req : Message) :
    ∃ h2, ctxtags.setRequestFieldTags h ctx (some f) method req
        = some (h2, [ctxtags.Event.requestFieldsFunc method req]) ∧
      h2.length = h.length ∧
      (∀ p q, ctx.tags = some p → q ≠ p → h2[q]? = h[q]?) ∧
      (∀ p key, ctx.tags = some p → p < h.length → (∀ k, key ≠ "grpc.request." ++ k) →
        logger.ctxtags.tagAt h2 p key = logger.ctxtags.tagAt h p key) := by
  rcases hfr : f method req with _ | valMap
  · refine ⟨h, ?_, rfl, fun _ _ _ _ => rfl, fun _ _ _ _ _ => rfl⟩
    simp [ctxtags.setRequestFieldTags, hfr]
  · refine ⟨valMap.foldl (fun hp kv =>
        logger.ctxtags.heapSet hp ctx.tags ("grpc.request." ++ kv.1) kv.2) h, ?_,
      writeFields_length _ _ _, ?_, ?_⟩
    · simp [ctxtags.setRequestFieldTags, hfr, logger.ctxtags.Extract]
    · intro p q hp hq
      rw [hp]
      exact writeFields_other _ _ _ _ hq
    · intro p key hp hlt hk
      rw [hp]
      exact writeFields_tagAt_other _ _ _ _ hlt (fun kv _ => hk kv.1)

/-- One receive on a `wrappedStream` whose extractor is set: it returns, hands
on the underlying error and message, and runs extraction exactly when the call
is no client stream or extraction from the initial message is enabled and the
flag is set; only then is the flag cleared. -/
theorem wrappedStream_RecvMsg_spec (w : ctxtags.wrappedStream) (h : logger.ctxtags.Heap)
    (m : Message) (f : ctxtags.RequestFieldExtractorFunc) (hf : w.opts.requestFieldsFunc = some f) :
    ∃ r, w.RecvMsg h m = some r ∧
      r.err = (w.stream.RecvMsg m).2.2 ∧ r.m = (w.stream.RecvMsg m).2.1 ∧
      r.w.stream = (w.stream.RecvMsg m).1 ∧ r.w.info = w.info ∧ r.w.opts = w.opts ∧
      r.w.WrappedContext = w.WrappedContext ∧ r.heap.length = h.length ∧
      (∀ p q, w.WrappedContext.tags = some p → q ≠ p → r.heap[q]? = h[q]?) ∧
      (∀ p key, w.WrappedContext.tags = some p → p < h.length →
        (∀ k, key ≠ "grpc.request." ++ k) →
        logger.ctxtags.tagAt r.heap p key = logger.ctxtags.tagAt h p key) ∧
      ((!w.info.IsClientStream || w.opts.requestFieldsFromInitial && w.initial) = true →
        r.w.initial = false ∧
        r.trace = [ctxtags.Event.requestFieldsFunc w.info.FullMethod (w.stream.RecvMsg m).2.1] ∧
        ctxtags.setRequestFieldTags h w.WrappedContext (some f) w.info.FullMethod
          (w.stream.RecvMsg m).2.1 = some (r.heap, r.trace)) ∧
      ((!w.info.IsClientStream || w.opts.requestFieldsFromInitial && w.initial) = false →
        r.w.initial = w.initial ∧ r.trace = [] ∧ r.heap = h) := by
  unfold ctxtags.wrappedStream.RecvMsg
  by_cases hc : (!w.info.IsClientStream || w.opts.requestFieldsFromInitial && w.initial) = true
  · obtain ⟨h2, hs, hl, ho, ht⟩ :=
      setRequestFieldTags_spec h w.WrappedContext f w.info.FullMethod (w.stream.RecvMsg m).2.1
    simp only [hc, if_true, hf, ctxtags.wrappedStream.Context, hs]
    refine ⟨_, rfl, rfl, rfl, rfl, rfl, rfl, rfl, hl, ho, ht, ?_, ?_⟩
    · intro _
      exact ⟨rfl, rfl, rfl⟩
    · intro hc'
      simp at hc'
  · have hc' : (!w.info.IsClientStream || w.opts.requestFieldsFromInitial && w.initial) = false := by
      simpa using hc
    simp only [hc', Bool.false_eq_true, if_false]
    refine ⟨_, rfl, rfl, rfl, rfl, rfl, rfl, rfl, rfl, ?_, ?_, ?_, ?_⟩
    · intro p q _ _; rfl
    · intro p key _ _ _; rfl
    · intro h1; simp at h1
    · intro _; exact ⟨rfl, rfl, rfl⟩

/-- Any number of receives on a `wrappedStream` whose extractor is set: they
all return, the wrapper keeps its context, call information and options, keys
other than request field keys keep their values, and on a client stream on
which extraction is not due no extraction happens at all. -/
theorem wrappedStream_recvAll_spec (bufs : List Message) (w : ctxtags.wrappedStream)
    (h : logger.ctxtags.Heap) (f : ctxtags.RequestFieldExtractorFunc) (p : Nat)
    (hf : w.opts.requestFieldsFunc = some f) (hp : w.WrappedContext.tags = some p)
    (hlt : p < h.length) :
    ∃ w' h' tr, ctxtags.recvAll w h bufs = some (w', h', tr) ∧
      w'.WrappedContext = w.WrappedContext ∧ w'.info = w.info ∧ w'.opts = w.opts ∧
      h'.length = h.length ∧
      (∀ key, (∀ k, key ≠ "grpc.request." ++ k) →
        logger.ctxtags.tagAt h' p key = logger.ctxtags.tagAt h p key) ∧
      (w.info.IsClientStream = true → (w.opts.requestFieldsFromInitial && w.initial) = false →
        tr = [] ∧ h' = h ∧ w'.initial = w.initial) := by
  induction bufs generalizing w h with
  | nil =>
    exact ⟨w, h, [], rfl, rfl, rfl, rfl, rfl, fun _ _ => rfl, fun _ _ => ⟨rfl, rfl, rfl⟩⟩
  | cons b rest ih =>
    obtain ⟨r, hr, -, -, -, hinfo, hopts, hctx, hlen, -, hkeep, hyes, hno⟩ :=
      wrappedStream_RecvMsg_spec w h b f hf
    obtain ⟨w', h', tr, hall, hctx', hinfo', hopts', hlen', hkeep', hquiet⟩ :=
      ih r.w r.heap (by rw [hopts]; exact hf) (by rw [hctx]; exact hp) (by rw [hlen]; exact hlt)
    refine ⟨w', h', r.trace ++ tr, ?_, hctx'.trans hctx, hinfo'.trans hinfo, hopts'.trans hopts,
      hlen'.trans hlen, ?_, ?_⟩
    · simp [ctxtags.recvAll, hr, hall]
    · intro key hk
      rw [hkeep' key hk, hkeep p key hp hlt hk]
    · intro hcs hoff
      have hc : (!w.info.IsClientStream || w.opts.requestFieldsFromInitial && w.initial) = false := by
        rw [hcs, hoff]; rfl
      obtain ⟨hi, ht, hh⟩ := hno hc
      obtain ⟨ht', hh', hi'⟩ := hquiet (by rw [hinfo]; exact hcs) (by rw [hopts, hi]; exact hoff)
      refine ⟨by rw [ht, ht']; rfl, by rw [hh', hh], by rw [hi', hi]⟩

/-- With an extractor configured the stream interceptor hands the handler a
`wrappedStream` in its initial state, carrying the new context. -/
theorem StreamServerInterceptor_wrapped {α : Type} (o : ctxtags.options)
    (f : ctxtags.RequestFieldExtractorFunc) (h : logger.ctxtags.Heap) (stream : ServerStream)
    (info : ctxtags.StreamServerInfo) (handler : logger.ctxtags.Heap → ctxtags.HandlerStream → α)
    (hf : o.requestFieldsFunc = some f) :
    ctxtags.StreamServerInterceptor o h stream info handler
      = handler (ctxtags.newTagsForCtx h stream.ctx).1
          (ctxtags.HandlerStream.wrapped
            ⟨stream, info, o, { stream.ctx with tags := some h.length }, true⟩) := by
  unfold ctxtags.StreamServerInterceptor
  simp only [hf, ServerStream.Context, newTagsForCtx_ctx]

/-- Without an extractor the stream interceptor hands the handler the
context-swap wrapper, carrying the new context. -/
theorem StreamServerInterceptor_swapped {α : Type} (o : ctxtags.options)
    (h : logger.ctxtags.Heap) (stream : ServerStream)
    (info : ctxtags.StreamServerInfo) (handler : logger.ctxtags.Heap → ctxtags.HandlerStream → α)
    (hf : o.requestFieldsFunc = none) :
    ctxtags.StreamServerInterceptor o h stream info handler
      = handler (ctxtags.newTagsForCtx h stream.ctx).1
          (ctxtags.HandlerStream.swapped ⟨stream, { stream.ctx with tags := some h.length }⟩) := by
  unfold ctxtags.StreamServerInterceptor
  simp only [hf, ServerStream.Context, newTagsForCtx_ctx, grpcMiddleware.WrapServerStream]

/-- C5: on every path of the tag interceptors the context the handler observes
carries a bag in which `peer.address` is the peer address when peer information
is available and is absent when it is not: the unary path, the streaming path
without an extractor (context-swap wrapper) and the streaming path with an
extractor (`wrappedStream`, read through `Context()` after any number of
receives). -/
theorem peer_address_on_every_path (o : ctxtags.options) (h : logger.ctxtags.Heap) :
    (∀ (ctx : Context) (req : Message) (info : ctxtags.UnaryServerInfo),
      ∃ (h' : logger.ctxtags.Heap) (newCtx : Context) (tr : List ctxtags.Event),
        (∀ (α : Type) (handler : logger.ctxtags.Heap → Context → Message → α),
          ctxtags.UnaryServerInterceptor o h ctx req info handler
            = some (tr, handler h' newCtx req)) ∧
        logger.ctxtags.tagOf h' newCtx "peer.address" = ctx.peer.map Peer.Addr) ∧
    (∀ (stream : ServerStream) (info : ctxtags.StreamServerInfo), o.requestFieldsFunc = none →
      ∃ (h' : logger.ctxtags.Heap) (s : grpcMiddleware.WrappedServerStream),
        (∀ (α : Type) (handler : logger.ctxtags.Heap → ctxtags.HandlerStream → α),
          ctxtags.StreamServerInterceptor o h stream info handler
            = handler h' (ctxtags.HandlerStream.swapped s)) ∧
        logger.ctxtags.tagOf h' s.Context "peer.address" = stream.ctx.peer.map Peer.Addr ∧
        ∀ m, logger.ctxtags.tagOf h' (s.RecvMsg m).1.Context "peer.address"
          = stream.ctx.peer.map Peer.Addr) ∧
    (∀ (stream : ServerStream) (info : ctxtags.StreamServerInfo), o.requestFieldsFunc ≠ none →
      ∃ (h' : logger.ctxtags.Heap) (w : ctxtags.wrappedStream),
        (∀ (α : Type) (handler : logger.ctxtags.Heap → ctxtags.HandlerStream → α),
          ctxtags.StreamServerInterceptor o h stream info handler
            = handler h' (ctxtags.HandlerStream.wrapped w)) ∧
        ∀ bufs : List Message, ∃ w' h'' tr, ctxtags.recvAll w h' bufs = some (w', h'', tr) ∧
          logger.ctxtags.tagOf h'' w'.Context "peer.address" = stream.ctx.peer.map Peer.Addr) := by
  refine ⟨?_, ?_, ?_⟩
  · intro ctx req info
    have hlen : h.length < (ctxtags.newTagsForCtx h ctx).1.length := by
      rw [newTagsForCtx_length]; exact Nat.lt_succ_self _
    have htags : ({ ctx with tags := some h.length } : Context).tags = some h.length := rfl
    rcases hf : o.requestFieldsFunc with _ | f
    · refine ⟨(ctxtags.newTagsForCtx h ctx).1, { ctx with tags := some h.length }, [], ?_, ?_⟩
      · intro α handler
        unfold ctxtags.UnaryServerInterceptor
        simp only [hf, newTagsForCtx_ctx]
      · rw [tagOf_eq_tagAt _ _ _ _ htags, newTagsForCtx_tagAt]
        simp
    · obtain ⟨h2, hs, -, -, hkeep⟩ := setRequestFieldTags_spec (ctxtags.newTagsForCtx h ctx).1
        { ctx with tags := some h.length } f info.FullMethod req
      refine ⟨h2, { ctx with tags := some h.length },
        [ctxtags.Event.requestFieldsFunc info.FullMethod req], ?_, ?_⟩
      · intro α handler
        unfold ctxtags.UnaryServerInterceptor
        simp only [hf, newTagsForCtx_ctx, hs]
      · rw [tagOf_eq_tagAt _ _ _ _ htags,
          hkeep h.length _ htags hlen (fun k => peer_address_ne_request_key k), newTagsForCtx_tagAt]
        simp
  · intro stream info hf
    have htags : ({ stream.ctx with tags := some h.length } : Context).tags = some h.length := rfl
    have hval : logger.ctxtags.tagOf (ctxtags.newTagsForCtx h stream.ctx).1
        { stream.ctx with tags := some h.length } "peer.address" = stream.ctx.peer.map Peer.Addr := by
      rw [tagOf_eq_tagAt _ _ _ _ htags, newTagsForCtx_tagAt]
      simp
    exact ⟨_, _, fun α handler => StreamServerInterceptor_swapped o h stream info handler hf,
      hval, fun _ => hval⟩
  · intro stream info hf
    obtain ⟨f, hf'⟩ : ∃ f, o.requestFieldsFunc = some f := by
      rcases hfo : o.requestFieldsFunc with _ | f
      · exact absurd hfo hf
      · exact ⟨f, rfl⟩
    have hlen : h.length < (ctxtags.newTagsForCtx h stream.ctx).1.length := by
      rw [newTagsForCtx_length]; exact Nat.lt_succ_self _
    refine ⟨_, _, fun α handler => StreamServerInterceptor_wrapped o f h stream info handler hf', ?_⟩
    intro bufs
    obtain ⟨w', h'', tr, hall, hctx, -, -, -, hkeep, -⟩ :=
      wrappedStream_recvAll_spec bufs
        ⟨stream, info, o, { stream.ctx with tags := some h.length }, true⟩
        (ctxtags.newTagsForCtx h stream.ctx).1 f h.length hf' rfl hlen
    refine ⟨w', h'', tr, hall, ?_⟩
    have htags : w'.Context.tags = some h.length := by
      unfold ctxtags.wrappedStream.Context
      rw [hctx]
    rw [tagOf_eq_tagAt _ _ _ _ htags,
      hkeep _ (fun k => peer_address_ne_request_key k), newTagsForCtx_tagAt]
    simp

/-- Witness of C5: a bidirectional call from peer `10.0.0.1:500` with an
extractor configured; whatever the handler receives, `peer.address` stays. -/
theorem peer_address_on_every_path_witness :
    ∃ (h' : logger.ctxtags.Heap) (w : ctxtags.wrappedStream),
      (∀ (α : Type) (handler : logger.ctxtags.Heap → ctxtags.HandlerStream → α),
        ctxtags.StreamServerInterceptor ⟨some (fun _ m => some [("a", m.payload)]), true⟩ []
            ⟨⟨none, some ⟨"10.0.0.1:500"⟩, none⟩, []⟩ ⟨"X", true, true⟩ handler
          = handler h' (ctxtags.HandlerStream.wrapped w)) ∧
      ∀ bufs : List Message, ∃ w' h'' tr, ctxtags.recvAll w h' bufs = some (w', h'', tr) ∧
        logger.ctxtags.tagOf h'' w'.Context "peer.address" = some "10.0.0.1:500" :=
  (peer_address_on_every_path ⟨some (fun _ m => some [("a", m.payload)]), true⟩ []).2.2
    ⟨⟨none, some ⟨"10.0.0.1:500"⟩, none⟩, []⟩ ⟨"X", true, true⟩ (by simp)

/-- C6: on a client-streaming or bidirectional call (`IsClientStream` true) with
extraction from the initial message enabled, over any sequence of one or more
receives on the `wrappedStream` the interceptor creates, the extractor is
called exactly once, on the message of the first receive; the later receives
call it never and leave the bags as the first receive left them. -/
theorem extractor_once_on_first_receive (o : ctxtags.options)
    (f : ctxtags.RequestFieldExtractorFunc) (h : logger.ctxtags.Heap) (stream : ServerStream)
    (info : ctxtags.StreamServerInfo) (b : Message) (rest : List Message)
    (hf : o.requestFieldsFunc = some f) (hinit : o.requestFieldsFromInitial = true)
    (hcs : info.IsClientStream = true) :
    ∃ (h0 : logger.ctxtags.Heap) (w : ctxtags.wrappedStream),
      (∀ (α : Type) (handler : logger.ctxtags.Heap → ctxtags.HandlerStream → α),
        ctxtags.StreamServerInterceptor o h stream info handler
          = handler h0 (ctxtags.HandlerStream.wrapped w)) ∧
      ∃ r w', w.RecvMsg h0 b = some r ∧
        r.trace = [ctxtags.Event.requestFieldsFunc info.FullMethod (stream.RecvMsg b).2.1] ∧
        ctxtags.recvAll r.w r.heap rest = some (w', r.heap, []) ∧
        ctxtags.recvAll w h0 (b :: rest)
          = some (w', r.heap,
              [ctxtags.Event.requestFieldsFunc info.FullMethod (stream.RecvMsg b).2.1]) := by
  have hlen : h.length < (ctxtags.newTagsForCtx h stream.ctx).1.length := by
    rw [newTagsForCtx_length]; exact Nat.lt_succ_self _
  refine ⟨_, _, fun α handler => StreamServerInterceptor_wrapped o f h stream info handler hf, ?_⟩
  obtain ⟨r, hr, -, -, -, hinfo, hopts, hctx, hl, -, -, hyes, -⟩ :=
    wrappedStream_RecvMsg_spec
      ⟨stream, info, o, { stream.ctx with tags := some h.length }, true⟩
      (ctxtags.newTagsForCtx h stream.ctx).1 b f hf
  obtain ⟨hi, ht, -⟩ := hyes (by simp [hinit, hcs])
  obtain ⟨w', h', tr, hall, -, -, -, -, -, hquiet⟩ :=
    wrappedStream_recvAll_spec rest r.w r.heap f h.length (by rw [hopts]; exact hf)
      (by rw [hctx]) (by rw [hl]; exact hlen)
  obtain ⟨htr, hh, -⟩ := hquiet (by rw [hinfo]; exact hcs) (by rw [hi]; simp)
  subst htr hh
  refine ⟨r, w', hr, ht, hall, ?_⟩
  simp [ctxtags.recvAll, hr, hall, ht]

/-- Witness of C6: three messages on a client stream, extractor yielding
`a -> <payload>`; the bag gains `grpc.request.a -> 1` on the first receive and
the second and third receive add nothing. -/
theorem extractor_once_on_first_receive_witness :
    (ctxtags.StreamServerInterceptor ⟨some (fun _ m => some [("a", m.payload)]), true⟩ []
        ⟨⟨none, none, none⟩,
          [(⟨"1", none, none⟩, none), (⟨"2", none, none⟩, none), (⟨"3", none, none⟩, none)]⟩
        ⟨"X", true, false⟩
        (ctxtags.observingHandler [⟨"", none, none⟩, ⟨"", none, none⟩, ⟨"", none, none⟩])
      = some [(none, [ctxtags.Event.requestFieldsFunc "X" ⟨"1", none, none⟩], false,
                some ⟨[("grpc.request.a", "1")]⟩),
              (none, [], false, some ⟨[("grpc.request.a", "1")]⟩),
              (none, [], false, some ⟨[("grpc.request.a", "1")]⟩)]) ∧
    ∃ (h0 : logger.ctxtags.Heap) (w : ctxtags.wrappedStream),
      (∀ (α : Type) (handler : logger.ctxtags.Heap → ctxtags.HandlerStream → α),
        ctxtags.StreamServerInterceptor ⟨some (fun _ m => some [("a", m.payload)]), true⟩ []
            ⟨⟨none, none, none⟩,
              [(⟨"1", none, none⟩, none), (⟨"2", none, none⟩, none), (⟨"3", none, none⟩, none)]⟩
            ⟨"X", true, false⟩ handler
          = handler h0 (ctxtags.HandlerStream.wrapped w)) ∧
      ∃ r w', w.RecvMsg h0 ⟨"", none, none⟩ = some r ∧
        r.trace = [ctxtags.Event.requestFieldsFunc "X" ⟨"1", none, none⟩] ∧
        ctxtags.recvAll r.w r.heap [⟨"", none, none⟩, ⟨"", none, none⟩] = some (w', r.heap, []) ∧
        ctxtags.recvAll w h0 [⟨"", none, none⟩, ⟨"", none, none⟩, ⟨"", none, none⟩]
          = some (w', r.heap, [ctxtags.Event.requestFieldsFunc "X" ⟨"1", none, none⟩]) :=
  ⟨by decide,
   extractor_once_on_first_receive ⟨some (fun _ m => some [("a", m.payload)]), true⟩
    (fun _ m => some [("a", m.payload)]) []
    ⟨⟨none, none, none⟩,
      [(⟨"1", none, none⟩, none), (⟨"2", none, none⟩, none), (⟨"3", none, none⟩, none)]⟩
    ⟨"X", true, false⟩ ⟨"", none, none⟩ [⟨"", none, none⟩, ⟨"", none, none⟩] rfl rfl rfl⟩

/-- C7: on a server-streaming call (`IsClientStream` false) the single receive
on the `wrappedStream` the interceptor creates calls the extractor exactly
once, whatever the value of the flag for extraction from the initial message. -/
theorem server_stream_extracts_once (o : ctxtags.options)
    (f : ctxtags.RequestFieldExtractorFunc) (h : logger.ctxtags.Heap) (stream : ServerStream)
    (info : ctxtags.StreamServerInfo) (b : Message)
    (hf : o.requestFieldsFunc = some f) (hss : info.IsClientStream = false) :
    ∃ (h0 : logger.ctxtags.Heap) (w : ctxtags.wrappedStream),
      (∀ (α : Type) (handler : logger.ctxtags.Heap → ctxtags.HandlerStream → α),
        ctxtags.StreamServerInterceptor o h stream info handler
          = handler h0 (ctxtags.HandlerStream.wrapped w)) ∧
      ∃ r, w.RecvMsg h0 b = some r ∧
        r.trace = [ctxtags.Event.requestFieldsFunc info.FullMethod (stream.RecvMsg b).2.1] ∧
        ctxtags.recvAll w h0 [b]
          = some (r.w, r.heap,
              [ctxtags.Event.requestFieldsFunc info.FullMethod (stream.RecvMsg b).2.1]) := by
  refine ⟨_, _, fun α handler => StreamServerInterceptor_wrapped o f h stream info handler hf, ?_⟩
  obtain ⟨r, hr, -, -, -, -, -, -, -, -, -, hyes, -⟩ :=
    wrappedStream_RecvMsg_spec
      ⟨stream, info, o, { stream.ctx with tags := some h.length }, true⟩
      (ctxtags.newTagsForCtx h stream.ctx).1 b f hf
  obtain ⟨-, ht, -⟩ := hyes (by simp [hss])
  refine ⟨r, hr, ht, ?_⟩
  simp [ctxtags.recvAll, hr, ht]

/-- Witness of C7: a server-streaming call, with the flag set and with the flag
unset; the single receive calls the extractor once. -/
theorem server_stream_extracts_once_witness :
    (ctxtags.StreamServerInterceptor ⟨some (fun _ m => some [("a", m.payload)]), true⟩ []
        ⟨⟨none, none, none⟩, [(⟨"1", none, none⟩, none)]⟩ ⟨"X", false, true⟩
        (ctxtags.observingHandler [⟨"", none, none⟩])
      = some [(none, [ctxtags.Event.requestFieldsFunc "X" ⟨"1", none, none⟩], false,
                some ⟨[("grpc.request.a", "1")]⟩)]) ∧
    (ctxtags.StreamServerInterceptor ⟨some (fun _ m => some [("a", m.payload)]), false⟩ []
        ⟨⟨none, none, none⟩, [(⟨"1", none, none⟩, none)]⟩ ⟨"X", false, true⟩
        (ctxtags.observingHandler [⟨"", none, none⟩])
      = some [(none, [ctxtags.Event.requestFieldsFunc "X" ⟨"1", none, none⟩], false,
                some ⟨[("grpc.request.a", "1")]⟩)]) ∧
    ∃ (h0 : logger.ctxtags.Heap) (w : ctxtags.wrappedStream),
      (∀ (α : Type) (handler : logger.ctxtags.Heap → ctxtags.HandlerStream → α),
        ctxtags.StreamServerInterceptor ⟨some (fun _ m => some [("a", m.payload)]), false⟩ []
            ⟨⟨none, none, none⟩, [(⟨"1", none, none⟩, none)]⟩ ⟨"X", false, true⟩ handler
          = handler h0 (ctxtags.HandlerStream.wrapped w)) ∧
      ∃ r, w.RecvMsg h0 ⟨"", none, none⟩ = some r ∧
        r.trace = [ctxtags.Event.requestFieldsFunc "X" ⟨"1", none, none⟩] ∧
        ctxtags.recvAll w h0 [⟨"", none, none⟩]
          = some (r.w, r.heap, [ctxtags.Event.requestFieldsFunc "X" ⟨"1", none, none⟩]) :=
  ⟨by decide, by decide,
   server_stream_extracts_once ⟨some (fun _ m => some [("a", m.payload)]), false⟩
    (fun _ m => some [("a", m.payload)]) []
    ⟨⟨none, none, none⟩, [(⟨"1", none, none⟩, none)]⟩ ⟨"X", false, true⟩ ⟨"", none, none⟩ rfl rfl⟩

/-- On a client stream on which extraction is not due, no receive extracts:
the bags and the flag stay as they are. -/
theorem wrappedStream_recvAll_quiet (bufs : List Message) (w : ctxtags.wrappedStream)
    (h : logger.ctxtags.Heap) (f : ctxtags.RequestFieldExtractorFunc)
    (hf : w.opts.requestFieldsFunc = some f) (hcs : w.info.IsClientStream = true)
    (hoff : (w.opts.requestFieldsFromInitial && w.initial) = false) :
    ∃ w', ctxtags.recvAll w h bufs = some (w', h, []) ∧ w'.initial = w.initial := by
  induction bufs generalizing w with
  | nil => exact ⟨w, rfl, rfl⟩
  | cons b rest ih =>
    obtain ⟨r, hr, -, -, -, hinfo, hopts, -, -, -, -, -, hno⟩ :=
      wrappedStream_RecvMsg_spec w h b f hf
    obtain ⟨hi, ht, hh⟩ := hno (by rw [hcs, hoff]; rfl)
    obtain ⟨w', hall, hi'⟩ := ih r.w (by rw [hopts]; exact hf) (by rw [hinfo]; exact hcs)
      (by rw [hopts, hi]; exact hoff)
    refine ⟨w', ?_, hi'.trans hi⟩
    simp [ctxtags.recvAll, hr, hh, hall, ht]

/-- Counterexample to C8. On a client stream with extraction from the initial
message disabled the flag is still set after the first receive (and after the
second); on a call that is no client stream the extractor is called again on
the second receive. -/
theorem steady_after_first_receive_counterexample :
    (ctxtags.StreamServerInterceptor ⟨some (fun _ m => some [("a", m.payload)]), false⟩ []
        ⟨⟨none, none, none⟩, [(⟨"1", none, none⟩, none), (⟨"2", none, none⟩, none)]⟩
        ⟨"X", true, false⟩ (ctxtags.observingHandler [⟨"", none, none⟩, ⟨"", none, none⟩])
      = some [(none, [], true, some ⟨[]⟩), (none, [], true, some ⟨[]⟩)]) ∧
    (ctxtags.StreamServerInterceptor ⟨some (fun _ m => some [("a", m.payload)]), true⟩ []
        ⟨⟨none, none, none⟩, [(⟨"1", none, none⟩, none), (⟨"2", none, none⟩, none)]⟩
        ⟨"X", false, true⟩ (ctxtags.observingHandler [⟨"", none, none⟩, ⟨"", none, none⟩])
      = some [(none, [ctxtags.Event.requestFieldsFunc "X" ⟨"1", none, none⟩], false,
                some ⟨[("grpc.request.a", "1")]⟩),
              (none, [ctxtags.Event.requestFieldsFunc "X" ⟨"2", none, none⟩], false,
                some ⟨[("grpc.request.a", "2")]⟩)]) := by
  constructor <;> decide

/-- C8, amended: a receive clears the `initial` flag exactly when extraction
runs on it and leaves the flag alone otherwise; so after the first receive the
flag is false whenever the call is no client stream or extraction from the
initial message is enabled, and on a client stream with that extraction
disabled the flag stays as it was and the extractor is not called. On a client
stream the extractor is called on no receive after the first. -/
theorem initial_flag_cleared_with_extraction (w : ctxtags.wrappedStream)
    (h : logger.ctxtags.Heap) (f : ctxtags.RequestFieldExtractorFunc) (b : Message)
    (rest : List Message) (hf : w.opts.requestFieldsFunc = some f) :
    ∃ r, w.RecvMsg h b = some r ∧
      (r.trace ≠ [] → r.w.initial = false) ∧
      (r.trace = [] → r.w.initial = w.initial) ∧
      (w.info.IsClientStream = false ∨ w.opts.requestFieldsFromInitial = true →
        r.w.initial = false) ∧
      (w.info.IsClientStream = true → w.opts.requestFieldsFromInitial = false →
        r.trace = [] ∧ r.w.initial = w.initial) ∧
      (w.info.IsClientStream = true →
        ∃ w', ctxtags.recvAll r.w r.heap rest = some (w', r.heap, [])) := by
  obtain ⟨r, hr, -, -, -, hinfo, hopts, -, -, -, -, hyes, hno⟩ :=
    wrappedStream_RecvMsg_spec w h b f hf
  refine ⟨r, hr, ?_, ?_, ?_, ?_, ?_⟩
  rotate_left 3
  · intro hcs hoff
    have hc : (!w.info.IsClientStream || w.opts.requestFieldsFromInitial && w.initial) = false := by
      simp [hcs, hoff]
    exact ⟨(hno hc).2.1, (hno hc).1⟩
  rotate_left 1
  · intro htr
    cases hc : (!w.info.IsClientStream || w.opts.requestFieldsFromInitial && w.initial) with
    | true => exact (hyes hc).1
    | false => exact absurd (hno hc).2.1 htr
  · intro htr
    cases hc : (!w.info.IsClientStream || w.opts.requestFieldsFromInitial && w.initial) with
    | true =>
      rw [(hyes hc).2.1] at htr
      cases htr
    | false => exact (hno hc).1
  · intro hor
    cases hc : (!w.info.IsClientStream || w.opts.requestFieldsFromInitial && w.initial) with
    | true => exact (hyes hc).1
    | false =>
      rw [(hno hc).1]
      rcases hor with h1 | h1 <;> simp [h1] at hc
      exact hc.2
  · intro hcs
    have hoff : (r.w.opts.requestFieldsFromInitial && r.w.initial) = false := by
      cases hc : (!w.info.IsClientStream || w.opts.requestFieldsFromInitial && w.initial) with
      | true => rw [(hyes hc).1]; simp
      | false =>
        rw [hopts, (hno hc).1]
        simpa [hcs] using hc
    obtain ⟨w', hall, -⟩ := wrappedStream_recvAll_quiet rest r.w r.heap f
      (by rw [hopts]; exact hf) (by rw [hinfo]; exact hcs) hoff
    exact ⟨w', hall⟩

/-- Witness of C8, amended: a fresh wrapper of a client stream with extraction
from the initial message enabled. -/
theorem initial_flag_cleared_with_extraction_witness :
    ∃ r, ctxtags.wrappedStream.RecvMsg
        ⟨⟨⟨none, none, some 0⟩, [(⟨"1", none, none⟩, none), (⟨"2", none, none⟩, none)]⟩,
          ⟨"X", true, false⟩, ⟨some (fun _ m => some [("a", m.payload)]), true⟩,
          ⟨none, none, some 0⟩, true⟩ [⟨[]⟩] ⟨"", none, none⟩ = some r ∧
      r.w.initial = false ∧
      ∃ w', ctxtags.recvAll r.w r.heap [⟨"", none, none⟩] = some (w', r.heap, []) := by
  obtain ⟨r, hr, -, -, h3, -, h4⟩ := initial_flag_cleared_with_extraction
    ⟨⟨⟨none, none, some 0⟩, [(⟨"1", none, none⟩, none), (⟨"2", none, none⟩, none)]⟩,
      ⟨"X", true, false⟩, ⟨some (fun _ m => some [("a", m.payload)]), true⟩,
      ⟨none, none, some 0⟩, true⟩ [⟨[]⟩] (fun _ m => some [("a", m.payload)]) ⟨"", none, none⟩
    [⟨"", none, none⟩] rfl
  exact ⟨r, hr, h3 (Or.inr rfl), h4 rfl⟩

/-- C9: the code at the failing inputs. The claim asks that a receive whose
underlying receive fails returns that error without calling the extractor,
writing a key or changing the `initial` flag. The wrapper does return the
error, but it does not look at it before extracting. On a server-streaming
call that delivers the request `1` and then fails with `EOF`, the second
receive returns `EOF` and yet calls the extractor on the unfilled buffer and
overwrites `grpc.request.a -> 1` with the empty value. On a client stream with
extraction from the initial message whose first receive fails with `reset`,
the receive returns `reset` and yet calls the extractor, writes
`grpc.request.a` and clears the flag. -/
theorem recv_error_runs_extraction :
    (ctxtags.StreamServerInterceptor ⟨some (fun _ m => some [("a", m.payload)]), false⟩ []
        ⟨⟨none, none, none⟩, [(⟨"1", none, none⟩, none)]⟩ ⟨"X", false, true⟩
        (ctxtags.observingHandler [⟨"", none, none⟩, ⟨"", none, none⟩])
      = some [(none, [ctxtags.Event.requestFieldsFunc "X" ⟨"1", none, none⟩], false,
                some ⟨[("grpc.request.a", "1")]⟩),
              (some (GoError.plain "EOF"),
                [ctxtags.Event.requestFieldsFunc "X" ⟨"", none, none⟩], false,
                some ⟨[("grpc.request.a", "")]⟩)]) ∧
    (ctxtags.StreamServerInterceptor ⟨some (fun _ _ => some [("a", "1")]), true⟩ []
        ⟨⟨none, none, none⟩, [(⟨"buf", none, none⟩, some (GoError.plain "reset"))]⟩
        ⟨"X", true, false⟩ (ctxtags.observingHandler [⟨"buf", none, none⟩])
      = some [(some (GoError.plain "reset"),
                [ctxtags.Event.requestFieldsFunc "X" ⟨"buf", none, none⟩], false,
                some ⟨[("grpc.request.a", "1")]⟩)]) := by
  constructor <;> decide

end GoFramework
